import Mathlib

/-!
# The sign-request handler of the signatory HTTP server

A shallow embedding of `pkg/server/server.go` (`Server.signHandler`) together with
the library calls it makes (`encoding/json.Unmarshal` into a `string`,
`encoding/hex.DecodeString`).  The handler is effectful; it is embedded as a function
from the request and its collaborators to the ordered list of effects it performs
(calls to the backend, log entries, the response written, the deferred body close).
-/

namespace Signatory

/-- A Go byte slice or string: a list of bytes, each a natural number below 256. -/
abbrev Bytes := List Nat

/-- Every element is a byte. -/
def IsBytes (b : Bytes) : Prop := ∀ x ∈ b, x < 256

/-! ## Errors -/

/-- The Go `error` values that reach the handler.
`ext tag status` is an error value produced by a collaborator (the body reader, the
backend signer, the message parser); `status` is what its `HTTPStatus()` method
returns when it implements `errors.HTTPError`, and `none` when it does not.
`json` is the error returned by `json.Unmarshal` (a syntax error or an unmarshal type
error; the handler never inspects it).  `hexInvalidByte` and `hexErrLength` are the
two errors of `encoding/hex`.  `wrap e status` is `errors.Wrap(e, status)`. -/
inductive GoErr where
  | ext (tag : Nat) (status : Option Nat)
  | json
  | hexInvalidByte (b : Nat)
  | hexErrLength
  | wrap (e : GoErr) (status : Nat)
deriving DecidableEq, Repr

/-- Value of `http.StatusBadRequest`. -/
def StatusBadRequest : Nat := 400

/-- Value of `http.StatusOK`. -/
def StatusOK : Nat := 200

/-- Value of `http.StatusInternalServerError`. -/
def StatusInternalServerError : Nat := 500

/-- Modelled from the spec: `errors.Wrap` of `pkg/errors`, which is not under `src/`.
It attaches an HTTP status to an error (section 6: the status code is taken from the
error's associated classification, `BadRequest` for decode failures). -/
def errorsWrap (e : GoErr) (status : Nat) : GoErr := GoErr.wrap e status

/-- Modelled from the spec: the classification an error carries, if any (section 6:
"status code taken from the error's associated classification"). -/
def httpStatus : GoErr → Option Nat
  | .ext _ st => st
  | .wrap _ st => some st
  | .json => none
  | .hexInvalidByte _ => none
  | .hexErrLength => none

/-- Modelled from the spec: the status `jsonError` of `pkg/server` (not under `src/`)
answers with (section 6: "`BadRequest` for decode failures, backend-reported status
otherwise, default `InternalServerError`"). -/
def jsonErrorStatus (e : GoErr) : Nat :=
  match httpStatus e with
  | some st => st
  | none => StatusInternalServerError

/-! ## encoding/hex -/

/-- The function `fromHexChar` of `encoding/hex`. -/
def fromHexChar (c : Nat) : Option Nat :=
  if 0x30 ≤ c ∧ c ≤ 0x39 then some (c - 0x30)
  else if 0x61 ≤ c ∧ c ≤ 0x66 then some (c - 0x61 + 10)
  else if 0x41 ≤ c ∧ c ≤ 0x46 then some (c - 0x41 + 10)
  else none

/-- The function `hex.DecodeString`: pairs of hex digits are decoded left to right, the
first invalid byte is reported, and an odd length is reported after the pairs. -/
def hexDecodeString : Bytes → Except GoErr Bytes
  | [] => .ok []
  | [c] =>
    match fromHexChar c with
    | none => .error (.hexInvalidByte c)
    | some _ => .error .hexErrLength
  | c1 :: c2 :: rest =>
    match fromHexChar c1 with
    | none => .error (.hexInvalidByte c1)
    | some a =>
      match fromHexChar c2 with
      | none => .error (.hexInvalidByte c2)
      | some b =>
        match hexDecodeString rest with
        | .ok bs => .ok ((((a <<< 4) ||| b) % 256) :: bs)
        | .error e => .error e

/-- The table `hextable = "0123456789abcdef"` of `encoding/hex`, indexed by a nibble. -/
def hextable (n : Nat) : Nat := if n < 10 then 0x30 + n else 0x61 + (n - 10)

/-- The function `hex.EncodeToString`. -/
def hexEncodeToString : Bytes → Bytes
  | [] => []
  | v :: rest => hextable (v >>> 4) :: hextable (v &&& 0x0f) :: hexEncodeToString rest

/-! ## encoding/json, unmarshalling into a `string` -/

/-- JSON insignificant whitespace: space, tab, carriage return, line feed. -/
def isSpace (c : Nat) : Bool := c = 0x20 || c = 0x09 || c = 0x0d || c = 0x0a

/-- Drop leading JSON whitespace. -/
def skipSpace : Bytes → Bytes
  | [] => []
  | c :: rest => if isSpace c then skipSpace rest else c :: rest

/-- The single-character escapes the JSON scanner accepts after a backslash:
the quote, the backslash, the slash, and b, f, n, r, t. -/
def simpleEscape (e : Nat) : Option Nat :=
  if e = 0x22 then some 0x22
  else if e = 0x5c then some 0x5c
  else if e = 0x2f then some 0x2f
  else if e = 0x62 then some 0x08
  else if e = 0x66 then some 0x0c
  else if e = 0x6e then some 0x0a
  else if e = 0x72 then some 0x0d
  else if e = 0x74 then some 0x09
  else none

/-- The function `getu4` of `encoding/json`: the code unit of a leading `\uXXXX`. -/
def getu4 : Bytes → Option Nat
  | b :: u :: h1 :: h2 :: h3 :: h4 :: _ =>
    if b = 0x5c ∧ u = 0x75 then
      match fromHexChar h1, fromHexChar h2, fromHexChar h3, fromHexChar h4 with
      | some a, some b, some c, some d => some (((a * 16 + b) * 16 + c) * 16 + d)
      | _, _, _, _ => none
    else none
  | _ => none

/-- The function `utf8.EncodeRune`; surrogates and out-of-range runes are encoded as
U+FFFD. -/
def encodeRune (r : Nat) : Bytes :=
  if r < 0x80 then [r]
  else if r < 0x800 then [0xc0 ||| (r >>> 6), 0x80 ||| (r &&& 0x3f)]
  else if (0xd800 ≤ r ∧ r ≤ 0xdfff) ∨ 0x10ffff < r then [0xef, 0xbf, 0xbd]
  else if r < 0x10000 then
    [0xe0 ||| (r >>> 12), 0x80 ||| ((r >>> 6) &&& 0x3f), 0x80 ||| (r &&& 0x3f)]
  else
    [0xf0 ||| (r >>> 18), 0x80 ||| ((r >>> 12) &&& 0x3f), 0x80 ||| ((r >>> 6) &&& 0x3f),
      0x80 ||| (r &&& 0x3f)]

/-- A continuation byte in the range `lo..hi`. -/
def inRange (lo hi c : Nat) : Bool := decide (lo ≤ c) && decide (c ≤ hi)

/-- The length of the well-formed UTF-8 sequence at the head of the input, following
the acceptance table of `utf8.DecodeRune`; `none` when the head is ill-formed
(`DecodeRune` then returns `RuneError` with size 1). -/
def utf8SeqLen : Bytes → Option Nat
  | [] => none
  | c :: rest =>
    if c < 0x80 then some 1
    else if inRange 0xc2 0xdf c then
      match rest with
      | c1 :: _ => if inRange 0x80 0xbf c1 then some 2 else none
      | _ => none
    else if inRange 0xe0 0xef c then
      match rest with
      | c1 :: c2 :: _ =>
        let lo := if c = 0xe0 then 0xa0 else 0x80
        let hi := if c = 0xed then 0x9f else 0xbf
        if inRange lo hi c1 && inRange 0x80 0xbf c2 then some 3 else none
      | _ => none
    else if inRange 0xf0 0xf4 c then
      match rest with
      | c1 :: c2 :: c3 :: _ =>
        let lo := if c = 0xf0 then 0x90 else 0x80
        let hi := if c = 0xf4 then 0x8f else 0xbf
        if inRange lo hi c1 && inRange 0x80 0xbf c2 && inRange 0x80 0xbf c3 then some 4
        else none
      | _ => none
    else none

/-- Scanning and unquoting of a JSON string literal after its opening quote
(`scanner` followed by `unquoteBytes` of `encoding/json`).  Returns the unquoted
content and the input that follows the closing quote, or `none` when the literal is
not well formed.  Each step consumes at least one byte and one unit of fuel. -/
def unquote : Nat → Bytes → Option (Bytes × Bytes)
  | 0, _ => none
  | _ + 1, [] => none
  | fuel + 1, c :: rest =>
    if c = 0x22 then some ([], rest)
    else if c < 0x20 then none
    else if c = 0x5c then
      match rest with
      | [] => none
      | e :: rest1 =>
        match simpleEscape e with
        | some b => (unquote fuel rest1).map (fun p => (b :: p.1, p.2))
        | none =>
          match getu4 (c :: rest) with
          | none => none
          | some rr =>
            let rest2 := rest1.drop 4
            if 0xd800 ≤ rr ∧ rr < 0xe000 then
              match getu4 rest2 with
              | some rr1 =>
                if rr < 0xdc00 ∧ 0xdc00 ≤ rr1 ∧ rr1 < 0xe000 then
                  (unquote fuel (rest2.drop 6)).map
                    (fun p => (encodeRune (((rr - 0xd800) <<< 10 ||| (rr1 - 0xdc00)) + 0x10000)
                      ++ p.1, p.2))
                else (unquote fuel rest2).map (fun p => (encodeRune 0xfffd ++ p.1, p.2))
              | none => (unquote fuel rest2).map (fun p => (encodeRune 0xfffd ++ p.1, p.2))
            else (unquote fuel rest2).map (fun p => (encodeRune rr ++ p.1, p.2))
    else if c < 0x80 then (unquote fuel rest).map (fun p => (c :: p.1, p.2))
    else
      match utf8SeqLen (c :: rest) with
      | some n =>
        (unquote fuel (rest.drop (n - 1))).map (fun p => ((c :: rest).take n ++ p.1, p.2))
      | none => (unquote fuel rest).map (fun p => (encodeRune 0xfffd ++ p.1, p.2))

/-- The bytes of the JSON literal `null`. -/
def nullLiteral : Bytes := [0x6e, 0x75, 0x6c, 0x6c]

/-- The content of a body that is one JSON string literal surrounded by optional
whitespace; `none` when the body is not a JSON string. -/
def jsonStringValue (body : Bytes) : Option Bytes :=
  match skipSpace body with
  | [] => none
  | c :: rest =>
    if c = 0x22 then
      match unquote rest.length rest with
      | some (s, tail) => if skipSpace tail = [] then some s else none
      | none => none
    else none

/-- Whether the body is the JSON literal `null` surrounded by optional whitespace. -/
def isJSONNull (body : Bytes) : Bool :=
  decide ((skipSpace body).take 4 = nullLiteral ∧ skipSpace ((skipSpace body).drop 4) = [])

/-- The call `json.Unmarshal(body, &req)` for `var req string` (so `req` is the empty
string before the call).  The body must be one JSON value surrounded by optional
whitespace.  A string literal is unquoted into `req`.  The literal `null` leaves `req`
unchanged and produces no error (encoding/json: "unmarshaling a JSON null into any
other Go type has no effect on the value and produces no error").  Every other body,
whether ill-formed JSON or a JSON value of another type, yields an error. -/
def jsonUnmarshalString (body : Bytes) : Except GoErr Bytes :=
  match jsonStringValue body with
  | some s => .ok s
  | none => if isJSONNull body then .ok [] else .error .json

/-- A byte that the string scanner copies unchanged: printable ASCII other than the
quote and the backslash. -/
def IsPlain (c : Nat) : Prop := 0x20 ≤ c ∧ c < 0x80 ∧ c ≠ 0x22 ∧ c ≠ 0x5c

/-- The function `json.Marshal` on a string of hex digits: the digits between two
double quotes (no digit needs escaping). -/
def jsonMarshalHex (s : Bytes) : Bytes := 0x22 :: (s ++ [0x22])

/-! ## The collaborators of the handler -/

/-- The request context `r.Context()`; only its identity matters. -/
abbrev Context := Nat

set_option linter.dupNamespace false in
/-- The type `signatory.PublicKey`, as far as this file reads it. -/
structure PublicKey where
  PublicKey : String
deriving DecidableEq, Repr

/-- The interface `Signer`.  Each method is called at most once per request, so a
method is represented by the result it gives for its arguments. -/
structure Signer where
  Sign : Context → String → Bytes → Except GoErr String
  GetPublicKey : Context → String → Except GoErr PublicKey

/-- The capability `tezos.MessageWithLevelAndChainID`: `GetLevel` and `GetChainID`. -/
structure LevelAndChainID where
  GetLevel : Int
  GetChainID : String
deriving DecidableEq, Repr

/-- A value of the interface `tezos.UnsignedMessage`: its `MessageKind()` and the
outcome of the type assertion `msg.(tezos.MessageWithLevelAndChainID)`. -/
structure UnsignedMessage where
  MessageKind : String
  withLevelAndChainID : Option LevelAndChainID
deriving DecidableEq, Repr

/-- Modelled from the spec: a signing backend together with the name the spec calls
`backendName` (section 3, DiagnosticContext).  The server holds the backend only
through the interface `Signer`, which has no method that returns a name. -/
structure Backend where
  backendName : String
  signer : Signer

/-- The package `tezos`, which is not under `src/`: its function
`ParseUnsignedMessage` is taken as given. -/
structure Tezos where
  ParseUnsignedMessage : Bytes → Except GoErr UnsignedMessage

/-- A logrus logger: the process-wide standard logger or an injected one. -/
inductive LoggerRef where
  | standard
  | injected (id : Nat)
deriving DecidableEq, Repr

/-- The struct `Server`. -/
structure Server where
  Signer : Signer
  Address : String
  Logger : Option LoggerRef

/-- The method `Server.logger`. -/
def Server.logger (s : Server) : LoggerRef :=
  match s.Logger with
  | some l => l
  | none => LoggerRef.standard

/-- An incoming request: the route variables `mux.Vars(r)`, the context, and the
outcome of `ioutil.ReadAll(r.Body)`. -/
structure Request where
  vars : List (String × String)
  ctx : Context
  body : Except GoErr Bytes

/-- The lookup `mux.Vars(r)[name]`; a missing variable reads as the empty string. -/
def muxVar (r : Request) (name : String) : String :=
  match r.vars.lookup name with
  | some v => v
  | none => ""

/-! ## Effects -/

/-- The value of a log field. -/
inductive FieldValue where
  | str (s : String)
  | int (n : Int)
deriving DecidableEq, Repr

/-- One entry written with `Errorf` (every entry the handler writes is at error level):
the logger, the fields attached with `WithFields`, the format string and its single
argument. -/
structure LogEntry where
  logger : LoggerRef
  fields : List (String × FieldValue)
  format : String
  arg : GoErr
deriving DecidableEq, Repr

/-- The effects of the handler, in the order they happen. -/
inductive Event where
  | readAll
  | sign (ctx : Context) (keyHash : String) (message : Bytes)
  | getPublicKey (ctx : Context) (keyHash : String)
  | parseUnsignedMessage (data : Bytes)
  | log (entry : LogEntry)
  | jsonError (err : GoErr)
  | jsonResponse (status : Nat) (signature : String)
  | bodyClose
deriving DecidableEq, Repr

/-- Log field name for the key hash. -/
def logPKH : String := "pkh"
/-- Log field name for the backend. -/
def logVaultName : String := "vault_name"
/-- Log field name for the operation kind. -/
def logOp : String := "op"
/-- Log field name for the chain id. -/
def logChainID : String := "chain_id"
/-- Log field name for the block level. -/
def logLevel : String := "lvl"

/-- The local `vaultName` of `signHandler`. -/
def vaultName : String := "mock"

/-- The format string of the sign-failure entries. -/
def signErrorFormat : String := "Error signing request: %v"

/-- The format string of the body-read failure entry. -/
def readErrorFormat : String := "Error reading POST content: %v"

/-! ## The handler -/

/-- The method `Server.signHandler`, as the list of its effects.  The deferred
`r.Body.Close()` runs last on every path. -/
def signHandler (tz : Tezos) (s : Server) (r : Request) : List Event :=
  let keyHash := muxVar r "key"
  (Event.readAll ::
    match r.body with
    | .error err =>
      [Event.log ⟨s.logger, [], readErrorFormat, err⟩, Event.jsonError err]
    | .ok body =>
      match jsonUnmarshalString body with
      | .error err => [Event.jsonError (errorsWrap err StatusBadRequest)]
      | .ok req =>
        match hexDecodeString req with
        | .error err => [Event.jsonError (errorsWrap err StatusBadRequest)]
        | .ok data =>
          Event.sign r.ctx keyHash data ::
          match s.Signer.Sign r.ctx keyHash data with
          | .error err =>
            Event.getPublicKey r.ctx keyHash ::
            match s.Signer.GetPublicKey r.ctx keyHash with
            | .error _ =>
              [Event.log ⟨s.logger, [], signErrorFormat, err⟩, Event.jsonError err]
            | .ok _ =>
              Event.parseUnsignedMessage data ::
              match tz.ParseUnsignedMessage data with
              | .error _ =>
                [Event.log ⟨s.logger, [], signErrorFormat, err⟩, Event.jsonError err]
              | .ok msg =>
                match msg.withLevelAndChainID with
                | some msgWithChainID =>
                  let op := msg.MessageKind
                  let level := msgWithChainID.GetLevel
                  let chainID := msgWithChainID.GetChainID
                  [Event.log ⟨s.logger,
                      [(logVaultName, FieldValue.str vaultName),
                       (logOp, FieldValue.str op),
                       (logPKH, FieldValue.str keyHash),
                       (logLevel, FieldValue.int level),
                       (logChainID, FieldValue.str chainID)],
                      signErrorFormat, err⟩,
                   Event.jsonError err]
                | none =>
                  [Event.log ⟨s.logger, [], signErrorFormat, err⟩, Event.jsonError err]
          | .ok signature => [Event.jsonResponse StatusOK signature])
  ++ [Event.bodyClose]

/-! ## Observations on a run -/

/-- The message bytes the handler obtains from a body: `json.Unmarshal` into a string
followed by `hex.DecodeString`. -/
def decodeMessage (body : Bytes) : Except GoErr Bytes :=
  match jsonUnmarshalString body with
  | .error err => .error err
  | .ok req => hexDecodeString req

/-- Hex encoding followed by JSON string encoding. -/
def encodeMessage (b : Bytes) : Bytes := jsonMarshalHex (hexEncodeToString b)

/-- A response written to the client. -/
inductive Response where
  | success (status : Nat) (signature : String)
  | failure (err : GoErr)
deriving DecidableEq, Repr

/-- The responses written during a run, in order. -/
def responses : List Event → List Response
  | [] => []
  | Event.jsonResponse st sig :: es => Response.success st sig :: responses es
  | Event.jsonError err :: es => Response.failure err :: responses es
  | _ :: es => responses es

/-- The status a response goes out with. -/
def Response.status : Response → Nat
  | .success st _ => st
  | .failure err => jsonErrorStatus err

/-- The calls to `Signer.Sign` during a run: key hash and message. -/
def signCalls : List Event → List (String × Bytes)
  | [] => []
  | Event.sign _ k m :: es => (k, m) :: signCalls es
  | _ :: es => signCalls es

/-- The calls to `Signer.GetPublicKey` during a run: the key hash. -/
def probeCalls : List Event → List String
  | [] => []
  | Event.getPublicKey _ k :: es => k :: probeCalls es
  | _ :: es => probeCalls es

/-- The calls to `tezos.ParseUnsignedMessage` during a run: the data. -/
def parseCalls : List Event → List Bytes
  | [] => []
  | Event.parseUnsignedMessage d :: es => d :: parseCalls es
  | _ :: es => parseCalls es

/-- The log entries written during a run. -/
def logEntries : List Event → List LogEntry
  | [] => []
  | Event.log e :: es => e :: logEntries es
  | _ :: es => logEntries es

/-- The value of a field of a log entry, if the entry has the field. -/
def LogEntry.field (e : LogEntry) (name : String) : Option FieldValue :=
  e.fields.lookup name

/-! ## Concrete collaborators and requests -/

/-- The body `"03ff"`: a JSON string of four hex digits. -/
def exBody : Bytes := [0x22, 0x30, 0x33, 0x66, 0x66, 0x22]

/-- A request for key `tz1` whose body is `"03ff"`. -/
def exRequest : Request := ⟨[("key", "tz1")], 0, .ok exBody⟩

/-- A request for key `tz1` whose body is the JSON literal `null`. -/
def exNullRequest : Request := ⟨[("key", "tz1")], 0, .ok nullLiteral⟩

/-- A request for key `tz1` whose body is `"03f"`: an odd number of hex digits. -/
def exBadRequest : Request := ⟨[("key", "tz1")], 0, .ok [0x22, 0x30, 0x33, 0x66, 0x22]⟩

/-- A request whose body cannot be read; the read error carries no HTTP status. -/
def exUnreadableRequest : Request := ⟨[("key", "tz1")], 0, .error (GoErr.ext 9 none)⟩

/-- The error the failing example backends return from `Sign`. -/
def exSignErr : GoErr := GoErr.ext 1 (some 403)

/-- The error the example backend returns from a failing `GetPublicKey`. -/
def exProbeErr : GoErr := GoErr.ext 2 (some 404)

/-- A backend that signs everything. -/
def exSigner : Signer := ⟨fun _ _ _ => .ok "sig", fun _ _ => .ok ⟨"edpk"⟩⟩

/-- A backend that knows the key and refuses to sign. -/
def exRefusingSigner : Signer := ⟨fun _ _ _ => .error exSignErr, fun _ _ => .ok ⟨"edpk"⟩⟩

/-- A backend that does not know the key. -/
def exUnknownKeySigner : Signer :=
  ⟨fun _ _ _ => .error exSignErr, fun _ _ => .error exProbeErr⟩

/-- A parser that recognises a block at level 5 of chain `NetXdQprcVkpaWU`. -/
def exTezosBlock : Tezos := ⟨fun _ => .ok ⟨"block", some ⟨5, "NetXdQprcVkpaWU"⟩⟩⟩

/-- A parser that recognises an operation without level and chain id. -/
def exTezosGeneric : Tezos := ⟨fun _ => .ok ⟨"generic", none⟩⟩

/-- A server around a backend, with the default address and logger. -/
def exServer (sg : Signer) : Server := ⟨sg, "", none⟩

/-- A backend named `azure` that knows the key and refuses to sign. -/
def exVault : Backend := ⟨"azure", exRefusingSigner⟩

/-! ## Facts about the library functions -/

set_option maxRecDepth 100000 in
theorem hex_nibbles (v : Nat) (hv : v < 256) :
    fromHexChar (hextable (v >>> 4)) = some (v >>> 4) ∧
    fromHexChar (hextable (v &&& 0x0f)) = some (v &&& 0x0f) ∧
    (((v >>> 4) <<< 4) ||| (v &&& 0x0f)) % 256 = v := by
  revert v
  decide

theorem hexDecodeString_hexEncodeToString (b : Bytes) (hb : IsBytes b) :
    hexDecodeString (hexEncodeToString b) = .ok b := by
  induction b with
  | nil => rfl
  | cons v rest ih =>
    have hv : v < 256 := hb v (List.mem_cons_self v rest)
    have hrest : IsBytes rest := fun x hx => hb x (List.mem_cons_of_mem v hx)
    obtain ⟨h1, h2, h3⟩ := hex_nibbles v hv
    simp only [hexEncodeToString, hexDecodeString, h1, h2, ih hrest, h3]

theorem hexDecodeString_isBytes : ∀ (s d : Bytes), hexDecodeString s = .ok d → IsBytes d
  | [], d, h => by
    simp only [hexDecodeString, Except.ok.injEq] at h
    subst h
    intro x hx
    simp at hx
  | [c], d, h => by
    simp only [hexDecodeString] at h
    split at h <;> simp at h
  | c1 :: c2 :: rest, d, h => by
    simp only [hexDecodeString] at h
    split at h
    · simp at h
    · split at h
      · simp at h
      · split at h
        · rename_i bs hbs
          simp only [Except.ok.injEq] at h
          subst h
          intro x hx
          rcases List.mem_cons.mp hx with hx | hx
          · subst hx
            exact Nat.mod_lt _ (by decide)
          · exact hexDecodeString_isBytes rest bs hbs x hx
        · simp at h

theorem hexDecodeString_rejects : ∀ (s : Bytes),
    ((∃ c ∈ s, fromHexChar c = none) ∨ s.length % 2 = 1) → ∃ e, hexDecodeString s = .error e
  | [], h => by
    rcases h with ⟨c, hc, _⟩ | h
    · simp at hc
    · simp at h
  | [c], _ => by
    simp only [hexDecodeString]
    split
    · exact ⟨_, rfl⟩
    · exact ⟨_, rfl⟩
  | c1 :: c2 :: rest, h => by
    simp only [hexDecodeString]
    split
    · exact ⟨_, rfl⟩
    · rename_i a ha
      split
      · exact ⟨_, rfl⟩
      · rename_i b hb
        have hrest : (∃ c ∈ rest, fromHexChar c = none) ∨ rest.length % 2 = 1 := by
          rcases h with ⟨c, hc, hnone⟩ | h
          · left
            rcases List.mem_cons.mp hc with hc | hc
            · subst hc; rw [ha] at hnone; simp at hnone
            · rcases List.mem_cons.mp hc with hc | hc
              · subst hc; rw [hb] at hnone; simp at hnone
              · exact ⟨c, hc, hnone⟩
          · right
            simp only [List.length_cons] at h
            omega
        obtain ⟨e, he⟩ := hexDecodeString_rejects rest hrest
        rw [he]
        exact ⟨_, rfl⟩

theorem hextable_isPlain (n : Nat) (hn : n < 16) : IsPlain (hextable n) := by
  revert n
  unfold IsPlain
  decide

theorem hexEncodeToString_isPlain (b : Bytes) (hb : IsBytes b) :
    ∀ c ∈ hexEncodeToString b, IsPlain c := by
  induction b with
  | nil => intro c hc; simp [hexEncodeToString] at hc
  | cons v rest ih =>
    have hv : v < 256 := hb v (List.mem_cons_self v rest)
    have hrest : IsBytes rest := fun x hx => hb x (List.mem_cons_of_mem v hx)
    intro c hc
    simp only [hexEncodeToString, List.mem_cons] at hc
    rcases hc with hc | hc | hc
    · subst hc
      exact hextable_isPlain _ (by rw [Nat.shiftRight_eq_div_pow]; omega)
    · subst hc
      exact hextable_isPlain _ (by
        have : v &&& 0x0f = v % 16 := Nat.and_pow_two_sub_one_eq_mod v 4
        omega)
    · exact ih hrest c hc

theorem hexDecodeString_accepts : ∀ (s : Bytes),
    (∀ c ∈ s, fromHexChar c ≠ none) → s.length % 2 = 0 → ∃ d, hexDecodeString s = .ok d
  | [], _, _ => ⟨[], rfl⟩
  | [c], _, h => by simp at h
  | c1 :: c2 :: rest, hall, hlen => by
    have h1 := hall c1 (by simp)
    have h2 := hall c2 (by simp)
    have hrest : ∀ c ∈ rest, fromHexChar c ≠ none := fun c hc => hall c (by simp [hc])
    have hl : rest.length % 2 = 0 := by simp only [List.length_cons] at hlen; omega
    obtain ⟨d, hd⟩ := hexDecodeString_accepts rest hrest hl
    cases ha : fromHexChar c1 with
    | none => exact absurd ha h1
    | some a =>
      cases hb : fromHexChar c2 with
      | none => exact absurd hb h2
      | some b =>
        exact ⟨(((a <<< 4) ||| b) % 256) :: d, by simp only [hexDecodeString, ha, hb, hd]⟩

/-- The fuel given to `unquote` never runs out: any amount that covers the length of
the input gives the same result. -/
theorem unquote_fuel : ∀ (f1 f2 : Nat) (s : Bytes), s.length ≤ f1 → s.length ≤ f2 →
    unquote f1 s = unquote f2 s := by
  intro f1
  induction f1 with
  | zero =>
    intro f2 s h1 h2
    have hs : s = [] := List.length_eq_zero.mp (by omega)
    subst hs
    cases f2 <;> rfl
  | succ n ih =>
    intro f2 s h1 h2
    cases s with
    | nil => cases f2 <;> rfl
    | cons c rest =>
      cases f2 with
      | zero => simp at h2
      | succ m =>
        simp only [List.length_cons] at h1 h2
        have key : ∀ X : Bytes, X.length ≤ rest.length → unquote n X = unquote m X :=
          fun X hX => ih m X (by omega) (by omega)
        have k0 := key rest (le_refl _)
        have k5 : ∀ j, unquote n (rest.drop j) = unquote m (rest.drop j) :=
          fun j => key _ (by rw [List.length_drop]; omega)
        cases rest with
        | nil => simp only [unquote, k0, k5]
        | cons e rest1 =>
          have k1 := key rest1 (by simp)
          have k3 := key (rest1.drop 4) (by simp only [List.length_drop, List.length_cons]; omega)
          have k4 := key ((rest1.drop 4).drop 6)
            (by simp only [List.length_drop, List.length_cons]; omega)
          simp only [unquote, k0, k1, k3, k4, k5]

theorem unquote_plain (s : Bytes) (hs : ∀ c ∈ s, IsPlain c) :
    ∀ (fuel : Nat) (tail : Bytes), s.length < fuel →
      unquote fuel (s ++ 0x22 :: tail) = some (s, tail) := by
  induction s with
  | nil =>
    intro fuel tail hf
    cases fuel with
    | zero => simp at hf
    | succ n => simp [unquote]
  | cons c rest ih =>
    intro fuel tail hf
    cases fuel with
    | zero => simp at hf
    | succ n =>
      obtain ⟨h1, h2, h3, h4⟩ := hs c (List.mem_cons_self c rest)
      have hrest : ∀ x ∈ rest, IsPlain x := fun x hx => hs x (List.mem_cons_of_mem c hx)
      have hlen : rest.length < n := by simp only [List.length_cons] at hf; omega
      have h5 : ¬ c < 0x20 := by omega
      have hih := ih hrest n tail hlen
      simp only [List.cons_append, unquote, h3, h4, h5, h2, if_false, if_true,
        List.append_eq, hih, Option.map_some']

theorem jsonUnmarshalString_marshalHex (s : Bytes) (hs : ∀ c ∈ s, IsPlain c) :
    jsonUnmarshalString (jsonMarshalHex s) = .ok s := by
  have hq : unquote (s ++ [0x22]).length (s ++ [0x22]) = some (s, []) :=
    unquote_plain s hs _ [] (by simp)
  simp only [List.length_append, List.length_singleton] at hq
  simp [jsonUnmarshalString, jsonStringValue, jsonMarshalHex, skipSpace, isSpace, hq]

theorem decodeMessage_encodeMessage (b : Bytes) (hb : IsBytes b) :
    decodeMessage (encodeMessage b) = .ok b := by
  unfold decodeMessage encodeMessage
  rw [jsonUnmarshalString_marshalHex _ (hexEncodeToString_isPlain b hb)]
  exact hexDecodeString_hexEncodeToString b hb

theorem decodeMessage_isBytes (body d : Bytes) (h : decodeMessage body = .ok d) :
    IsBytes d := by
  unfold decodeMessage at h
  split at h
  · simp at h
  · exact hexDecodeString_isBytes _ d h

/-! ## The run of the handler, path by path -/

theorem signHandler_readError (tz : Tezos) (s : Server) (r : Request) (e : GoErr)
    (hbody : r.body = .error e) :
    signHandler tz s r =
      [Event.readAll, Event.log ⟨s.logger, [], readErrorFormat, e⟩, Event.jsonError e,
        Event.bodyClose] := by
  simp [signHandler, hbody]

theorem signHandler_decodeError (tz : Tezos) (s : Server) (r : Request) (body : Bytes)
    (e : GoErr) (hbody : r.body = .ok body) (hdec : decodeMessage body = .error e) :
    signHandler tz s r =
      [Event.readAll, Event.jsonError (errorsWrap e StatusBadRequest), Event.bodyClose] := by
  unfold decodeMessage at hdec
  unfold signHandler
  rw [hbody]
  cases hj : jsonUnmarshalString body with
  | error e1 =>
    rw [hj] at hdec
    simp only [Except.error.injEq] at hdec
    simp [hj, hdec]
  | ok req =>
    rw [hj] at hdec
    simp only at hdec
    simp [hj, hdec]

theorem signHandler_signOk (tz : Tezos) (s : Server) (r : Request) (body data : Bytes)
    (sig : String) (hbody : r.body = .ok body) (hdec : decodeMessage body = .ok data)
    (hsign : s.Signer.Sign r.ctx (muxVar r "key") data = .ok sig) :
    signHandler tz s r =
      [Event.readAll, Event.sign r.ctx (muxVar r "key") data,
        Event.jsonResponse StatusOK sig, Event.bodyClose] := by
  unfold decodeMessage at hdec
  unfold signHandler
  rw [hbody]
  cases hj : jsonUnmarshalString body with
  | error e1 => rw [hj] at hdec; simp at hdec
  | ok req =>
    rw [hj] at hdec
    simp only at hdec
    simp [hj, hdec, hsign]

theorem signHandler_signError (tz : Tezos) (s : Server) (r : Request) (body data : Bytes)
    (err : GoErr) (hbody : r.body = .ok body) (hdec : decodeMessage body = .ok data)
    (hsign : s.Signer.Sign r.ctx (muxVar r "key") data = .error err) :
    signHandler tz s r =
      Event.readAll :: Event.sign r.ctx (muxVar r "key") data ::
        Event.getPublicKey r.ctx (muxVar r "key") ::
        ((match s.Signer.GetPublicKey r.ctx (muxVar r "key") with
          | .error _ =>
            [Event.log ⟨s.logger, [], signErrorFormat, err⟩, Event.jsonError err]
          | .ok _ =>
            Event.parseUnsignedMessage data ::
            match tz.ParseUnsignedMessage data with
            | .error _ =>
              [Event.log ⟨s.logger, [], signErrorFormat, err⟩, Event.jsonError err]
            | .ok msg =>
              match msg.withLevelAndChainID with
              | some m =>
                [Event.log ⟨s.logger,
                    [(logVaultName, FieldValue.str vaultName),
                     (logOp, FieldValue.str msg.MessageKind),
                     (logPKH, FieldValue.str (muxVar r "key")),
                     (logLevel, FieldValue.int m.GetLevel),
                     (logChainID, FieldValue.str m.GetChainID)],
                    signErrorFormat, err⟩,
                 Event.jsonError err]
              | none =>
                [Event.log ⟨s.logger, [], signErrorFormat, err⟩, Event.jsonError err])
          ++ [Event.bodyClose]) := by
  unfold decodeMessage at hdec
  unfold signHandler
  rw [hbody]
  cases hj : jsonUnmarshalString body with
  | error e1 => rw [hj] at hdec; simp at hdec
  | ok req =>
    rw [hj] at hdec
    simp only at hdec
    simp [hj, hdec, hsign]

theorem signHandler_probeError (tz : Tezos) (s : Server) (r : Request) (body data : Bytes)
    (err e : GoErr) (hbody : r.body = .ok body) (hdec : decodeMessage body = .ok data)
    (hsign : s.Signer.Sign r.ctx (muxVar r "key") data = .error err)
    (hprobe : s.Signer.GetPublicKey r.ctx (muxVar r "key") = .error e) :
    signHandler tz s r =
      [Event.readAll, Event.sign r.ctx (muxVar r "key") data,
        Event.getPublicKey r.ctx (muxVar r "key"),
        Event.log ⟨s.logger, [], signErrorFormat, err⟩, Event.jsonError err,
        Event.bodyClose] := by
  rw [signHandler_signError tz s r body data err hbody hdec hsign, hprobe]
  rfl

theorem signHandler_parseError (tz : Tezos) (s : Server) (r : Request) (body data : Bytes)
    (err e : GoErr) (pk : PublicKey) (hbody : r.body = .ok body)
    (hdec : decodeMessage body = .ok data)
    (hsign : s.Signer.Sign r.ctx (muxVar r "key") data = .error err)
    (hprobe : s.Signer.GetPublicKey r.ctx (muxVar r "key") = .ok pk)
    (hparse : tz.ParseUnsignedMessage data = .error e) :
    signHandler tz s r =
      [Event.readAll, Event.sign r.ctx (muxVar r "key") data,
        Event.getPublicKey r.ctx (muxVar r "key"), Event.parseUnsignedMessage data,
        Event.log ⟨s.logger, [], signErrorFormat, err⟩, Event.jsonError err,
        Event.bodyClose] := by
  rw [signHandler_signError tz s r body data err hbody hdec hsign, hprobe]
  simp only [hparse]
  rfl

theorem signHandler_withLevel (tz : Tezos) (s : Server) (r : Request) (body data : Bytes)
    (err : GoErr) (pk : PublicKey) (msg : UnsignedMessage) (m : LevelAndChainID)
    (hbody : r.body = .ok body) (hdec : decodeMessage body = .ok data)
    (hsign : s.Signer.Sign r.ctx (muxVar r "key") data = .error err)
    (hprobe : s.Signer.GetPublicKey r.ctx (muxVar r "key") = .ok pk)
    (hparse : tz.ParseUnsignedMessage data = .ok msg)
    (hcap : msg.withLevelAndChainID = some m) :
    signHandler tz s r =
      [Event.readAll, Event.sign r.ctx (muxVar r "key") data,
        Event.getPublicKey r.ctx (muxVar r "key"), Event.parseUnsignedMessage data,
        Event.log ⟨s.logger,
          [(logVaultName, FieldValue.str vaultName),
           (logOp, FieldValue.str msg.MessageKind),
           (logPKH, FieldValue.str (muxVar r "key")),
           (logLevel, FieldValue.int m.GetLevel),
           (logChainID, FieldValue.str m.GetChainID)],
          signErrorFormat, err⟩,
        Event.jsonError err, Event.bodyClose] := by
  rw [signHandler_signError tz s r body data err hbody hdec hsign, hprobe]
  simp only [hparse, hcap]
  rfl

theorem signHandler_withoutLevel (tz : Tezos) (s : Server) (r : Request)
    (body data : Bytes) (err : GoErr) (pk : PublicKey) (msg : UnsignedMessage)
    (hbody : r.body = .ok body) (hdec : decodeMessage body = .ok data)
    (hsign : s.Signer.Sign r.ctx (muxVar r "key") data = .error err)
    (hprobe : s.Signer.GetPublicKey r.ctx (muxVar r "key") = .ok pk)
    (hparse : tz.ParseUnsignedMessage data = .ok msg)
    (hcap : msg.withLevelAndChainID = none) :
    signHandler tz s r =
      [Event.readAll, Event.sign r.ctx (muxVar r "key") data,
        Event.getPublicKey r.ctx (muxVar r "key"), Event.parseUnsignedMessage data,
        Event.log ⟨s.logger, [], signErrorFormat, err⟩, Event.jsonError err,
        Event.bodyClose] := by
  rw [signHandler_signError tz s r body data err hbody hdec hsign, hprobe]
  simp only [hparse, hcap]
  rfl

/-- Every run of the handler follows one of five paths: the body cannot be read; the
body does not decode; signing succeeds; signing fails and the probe fails; signing
fails and the probe succeeds (one log entry, with or without fields). -/
theorem signHandler_cases (tz : Tezos) (s : Server) (r : Request) :
    (∃ e, r.body = .error e ∧
      signHandler tz s r =
        [Event.readAll, Event.log ⟨s.logger, [], readErrorFormat, e⟩, Event.jsonError e,
          Event.bodyClose]) ∨
    (∃ body e, r.body = .ok body ∧ decodeMessage body = .error e ∧
      signHandler tz s r =
        [Event.readAll, Event.jsonError (errorsWrap e StatusBadRequest),
          Event.bodyClose]) ∨
    (∃ body d sig, r.body = .ok body ∧ decodeMessage body = .ok d ∧
      s.Signer.Sign r.ctx (muxVar r "key") d = .ok sig ∧
      signHandler tz s r =
        [Event.readAll, Event.sign r.ctx (muxVar r "key") d,
          Event.jsonResponse StatusOK sig, Event.bodyClose]) ∨
    (∃ body d err e, r.body = .ok body ∧ decodeMessage body = .ok d ∧
      s.Signer.Sign r.ctx (muxVar r "key") d = .error err ∧
      s.Signer.GetPublicKey r.ctx (muxVar r "key") = .error e ∧
      signHandler tz s r =
        [Event.readAll, Event.sign r.ctx (muxVar r "key") d,
          Event.getPublicKey r.ctx (muxVar r "key"),
          Event.log ⟨s.logger, [], signErrorFormat, err⟩, Event.jsonError err,
          Event.bodyClose]) ∨
    (∃ body d err pk entry, r.body = .ok body ∧ decodeMessage body = .ok d ∧
      s.Signer.Sign r.ctx (muxVar r "key") d = .error err ∧
      s.Signer.GetPublicKey r.ctx (muxVar r "key") = .ok pk ∧
      signHandler tz s r =
        [Event.readAll, Event.sign r.ctx (muxVar r "key") d,
          Event.getPublicKey r.ctx (muxVar r "key"), Event.parseUnsignedMessage d,
          Event.log entry, Event.jsonError err, Event.bodyClose]) := by
  cases hbody : r.body with
  | error e => exact Or.inl ⟨e, rfl, signHandler_readError tz s r e hbody⟩
  | ok body =>
    cases hdec : decodeMessage body with
    | error e =>
      exact Or.inr (Or.inl ⟨body, e, rfl, hdec, signHandler_decodeError tz s r body e hbody hdec⟩)
    | ok d =>
      cases hsign : s.Signer.Sign r.ctx (muxVar r "key") d with
      | ok sig =>
        exact Or.inr (Or.inr (Or.inl
          ⟨body, d, sig, rfl, hdec, hsign, signHandler_signOk tz s r body d sig hbody hdec hsign⟩))
      | error err =>
        cases hprobe : s.Signer.GetPublicKey r.ctx (muxVar r "key") with
        | error e =>
          exact Or.inr (Or.inr (Or.inr (Or.inl
            ⟨body, d, err, e, rfl, hdec, hsign, rfl,
              signHandler_probeError tz s r body d err e hbody hdec hsign hprobe⟩)))
        | ok pk =>
          refine Or.inr (Or.inr (Or.inr (Or.inr ?_)))
          cases hparse : tz.ParseUnsignedMessage d with
          | error e =>
            exact ⟨body, d, err, pk, _, rfl, hdec, hsign, rfl,
              signHandler_parseError tz s r body d err e pk hbody hdec hsign hprobe hparse⟩
          | ok msg =>
            cases hcap : msg.withLevelAndChainID with
            | some m =>
              exact ⟨body, d, err, pk, _, rfl, hdec, hsign, rfl,
                signHandler_withLevel tz s r body d err pk msg m hbody hdec hsign hprobe
                  hparse hcap⟩
            | none =>
              exact ⟨body, d, err, pk, _, rfl, hdec, hsign, rfl,
                signHandler_withoutLevel tz s r body d err pk msg hbody hdec hsign hprobe
                  hparse hcap⟩

/-! ## The claims -/

/-- C1: when the body decodes and `Signer.Sign` returns an error `err`, the one
response the handler writes is the error response carrying exactly `err`, whatever
`GetPublicKey` and `ParseUnsignedMessage` return (their results are arbitrary here)
and whether or not the parsed message carries level and chain id. -/
theorem sign_failure_surfaces_sign_error (tz : Tezos) (s : Server) (r : Request)
    (body data : Bytes) (err : GoErr) (hbody : r.body = .ok body)
    (hdec : decodeMessage body = .ok data)
    (hsign : s.Signer.Sign r.ctx (muxVar r "key") data = .error err) :
    responses (signHandler tz s r) = [Response.failure err] := by
  rw [signHandler_signError tz s r body data err hbody hdec hsign]
  cases s.Signer.GetPublicKey r.ctx (muxVar r "key") with
  | error e => simp [responses]
  | ok pk =>
    cases tz.ParseUnsignedMessage data with
    | error e => simp [responses]
    | ok msg =>
      cases hcap : msg.withLevelAndChainID with
      | some m => simp [hcap, responses]
      | none => simp [hcap, responses]

/-- C1 (witness): a refused signature for `"03ff"` with a known key and a parsed block
is answered with the signer's error. -/
theorem sign_failure_surfaces_sign_error_witness :
    responses (signHandler exTezosBlock (exServer exRefusingSigner) exRequest) =
      [Response.failure exSignErr] :=
  sign_failure_surfaces_sign_error exTezosBlock (exServer exRefusingSigner) exRequest exBody
    [3, 255] exSignErr rfl rfl rfl

/-- C2 (counterexample): the body `null` is not a JSON string, yet `json.Unmarshal`
accepts it and leaves the string empty, so the handler calls `Signer.Sign` with the
empty message and answers 200 rather than `BadRequest`. -/
theorem null_body_is_signed :
    jsonStringValue nullLiteral = none ∧
    signCalls (signHandler exTezosBlock (exServer exSigner) exNullRequest) = [("tz1", [])] ∧
    responses (signHandler exTezosBlock (exServer exSigner) exNullRequest) =
      [Response.success 200 "sig"] :=
  ⟨rfl, rfl, rfl⟩

/-- C2 (amended): for every body that is neither a JSON string nor the JSON literal
`null`, or that is a JSON string whose content has a byte that is not a hex digit or
an odd number of bytes, the handler writes one error response wrapped with status
`BadRequest` and calls neither `Signer.Sign` nor `Signer.GetPublicKey`. -/
theorem undecodable_body_is_bad_request (tz : Tezos) (s : Server) (r : Request)
    (body : Bytes) (hbody : r.body = .ok body)
    (hbad : (jsonStringValue body = none ∧ isJSONNull body = false) ∨
      (∃ req, jsonStringValue body = some req ∧
        ((∃ c ∈ req, fromHexChar c = none) ∨ req.length % 2 = 1))) :
    ∃ e, responses (signHandler tz s r) = [Response.failure (errorsWrap e StatusBadRequest)] ∧
      (Response.failure (errorsWrap e StatusBadRequest)).status = 400 ∧
      signCalls (signHandler tz s r) = [] ∧
      probeCalls (signHandler tz s r) = [] := by
  have hdec : ∃ e, decodeMessage body = .error e := by
    unfold decodeMessage jsonUnmarshalString
    rcases hbad with ⟨hstr, hnull⟩ | ⟨req, hreq, hhex⟩
    · exact ⟨GoErr.json, by rw [hstr, hnull]; rfl⟩
    · obtain ⟨e, he⟩ := hexDecodeString_rejects req hhex
      exact ⟨e, by rw [hreq]; exact he⟩
  obtain ⟨e, he⟩ := hdec
  refine ⟨e, ?_, rfl, ?_, ?_⟩ <;>
    rw [signHandler_decodeError tz s r body e hbody he] <;> rfl

/-- C2 (witness): the body `"03f"`, a JSON string of three hex digits, is rejected
with `BadRequest` and the backend is not called. -/
theorem undecodable_body_is_bad_request_witness :
    ∃ e, responses (signHandler exTezosBlock (exServer exSigner) exBadRequest) =
        [Response.failure (errorsWrap e StatusBadRequest)] ∧
      (Response.failure (errorsWrap e StatusBadRequest)).status = 400 ∧
      signCalls (signHandler exTezosBlock (exServer exSigner) exBadRequest) = [] ∧
      probeCalls (signHandler exTezosBlock (exServer exSigner) exBadRequest) = [] :=
  undecodable_body_is_bad_request exTezosBlock (exServer exSigner) exBadRequest
    [0x22, 0x30, 0x33, 0x66, 0x22] rfl (Or.inr ⟨[0x30, 0x33, 0x66], rfl, Or.inr rfl⟩)

/-- C3 (counterexample): signing fails, the key exists and the payload parses to an
operation of kind `generic` without level and chain id; the log entry written has no
`vault_name`, no `op` and no `pkh` field. -/
theorem recognised_without_level_logs_no_fields :
    exRefusingSigner.GetPublicKey 0 "tz1" = .ok ⟨"edpk"⟩ ∧
    exTezosGeneric.ParseUnsignedMessage [3, 255] = .ok ⟨"generic", none⟩ ∧
    logEntries (signHandler exTezosGeneric (exServer exRefusingSigner) exRequest) =
      [⟨LoggerRef.standard, [], signErrorFormat, exSignErr⟩] ∧
    LogEntry.field ⟨LoggerRef.standard, [], signErrorFormat, exSignErr⟩ logVaultName = none ∧
    LogEntry.field ⟨LoggerRef.standard, [], signErrorFormat, exSignErr⟩ logOp = none ∧
    LogEntry.field ⟨LoggerRef.standard, [], signErrorFormat, exSignErr⟩ logPKH = none :=
  ⟨rfl, rfl, rfl, rfl, rfl, rfl⟩

/-- C3 (amended): when signing fails, the probe succeeds and the parsed operation does
not expose level and chain id, the handler writes exactly one log entry, and that entry
carries the signing error and no fields at all. -/
theorem recognised_without_level_logs_plain (tz : Tezos) (s : Server) (r : Request)
    (body data : Bytes) (err : GoErr) (pk : PublicKey) (msg : UnsignedMessage)
    (hbody : r.body = .ok body) (hdec : decodeMessage body = .ok data)
    (hsign : s.Signer.Sign r.ctx (muxVar r "key") data = .error err)
    (hprobe : s.Signer.GetPublicKey r.ctx (muxVar r "key") = .ok pk)
    (hparse : tz.ParseUnsignedMessage data = .ok msg)
    (hcap : msg.withLevelAndChainID = none) :
    logEntries (signHandler tz s r) = [⟨s.logger, [], signErrorFormat, err⟩] := by
  rw [signHandler_withoutLevel tz s r body data err pk msg hbody hdec hsign hprobe hparse hcap]
  rfl

/-- C3 (witness): the amended statement at the `generic` operation. -/
theorem recognised_without_level_logs_plain_witness :
    logEntries (signHandler exTezosGeneric (exServer exRefusingSigner) exRequest) =
      [⟨(exServer exRefusingSigner).logger, [], signErrorFormat, exSignErr⟩] :=
  recognised_without_level_logs_plain exTezosGeneric (exServer exRefusingSigner) exRequest
    exBody [3, 255] exSignErr ⟨"edpk"⟩ ⟨"generic", none⟩ rfl rfl rfl rfl rfl rfl

/-- C4 (counterexample): the server runs on the backend named `azure`; signing fails,
the key exists and the payload parses to a block at level 5; the log entry carries
`vault_name = "mock"`, which is not the name of the backend. -/
theorem vault_name_is_not_the_backend_name :
    ∃ entry,
      logEntries (signHandler exTezosBlock (exServer exVault.signer) exRequest) = [entry] ∧
      entry.field "vault_name" = some (FieldValue.str "mock") ∧
      entry.field "vault_name" ≠ some (FieldValue.str exVault.backendName) :=
  ⟨_, rfl, rfl, by decide⟩

/-- C4 (amended): when signing fails, the probe succeeds and the parsed operation
exposes level `L` and chain id `C`, the handler writes exactly one log entry; it carries
the signing error and the fields `lvl = L`, `chain_id = C`, `pkh` = the request's key
hash, `op` = the operation's `MessageKind`, and `vault_name` = the constant `"mock"`,
whatever the backend of the server is. -/
theorem recognised_with_level_logs_fields (tz : Tezos) (s : Server) (r : Request)
    (body data : Bytes) (err : GoErr) (pk : PublicKey) (msg : UnsignedMessage)
    (m : LevelAndChainID)
    (hbody : r.body = .ok body) (hdec : decodeMessage body = .ok data)
    (hsign : s.Signer.Sign r.ctx (muxVar r "key") data = .error err)
    (hprobe : s.Signer.GetPublicKey r.ctx (muxVar r "key") = .ok pk)
    (hparse : tz.ParseUnsignedMessage data = .ok msg)
    (hcap : msg.withLevelAndChainID = some m) :
    ∃ entry, logEntries (signHandler tz s r) = [entry] ∧
      entry.arg = err ∧
      entry.field "lvl" = some (FieldValue.int m.GetLevel) ∧
      entry.field "chain_id" = some (FieldValue.str m.GetChainID) ∧
      entry.field "pkh" = some (FieldValue.str (muxVar r "key")) ∧
      entry.field "op" = some (FieldValue.str msg.MessageKind) ∧
      entry.field "vault_name" = some (FieldValue.str "mock") := by
  rw [signHandler_withLevel tz s r body data err pk msg m hbody hdec hsign hprobe hparse hcap]
  exact ⟨_, rfl, rfl, rfl, rfl, rfl, rfl, rfl⟩

/-- C4 (witness): level 5 and chain id `NetXdQprcVkpaWU` appear verbatim, next to the
key hash `tz1`, the kind `block` and the vault name `mock`. -/
theorem recognised_with_level_logs_fields_witness :
    ∃ entry,
      logEntries (signHandler exTezosBlock (exServer exRefusingSigner) exRequest) = [entry] ∧
      entry.arg = exSignErr ∧
      entry.field "lvl" = some (FieldValue.int 5) ∧
      entry.field "chain_id" = some (FieldValue.str "NetXdQprcVkpaWU") ∧
      entry.field "pkh" = some (FieldValue.str "tz1") ∧
      entry.field "op" = some (FieldValue.str "block") ∧
      entry.field "vault_name" = some (FieldValue.str "mock") :=
  recognised_with_level_logs_fields exTezosBlock (exServer exRefusingSigner) exRequest
    exBody [3, 255] exSignErr ⟨"edpk"⟩ ⟨"block", some ⟨5, "NetXdQprcVkpaWU"⟩⟩
    ⟨5, "NetXdQprcVkpaWU"⟩ rfl rfl rfl rfl rfl rfl

/-- C5: when signing fails and either the probe fails, or the probe succeeds and the
parser does not recognise the payload, the handler writes exactly one log entry; it
carries the signing error and no `op`, `lvl` or `chain_id` field; and when the probe
fails the parser is not called. -/
theorem unknown_key_or_unrecognised_logs_once (tz : Tezos) (s : Server) (r : Request)
    (body data : Bytes) (err : GoErr) (hbody : r.body = .ok body)
    (hdec : decodeMessage body = .ok data)
    (hsign : s.Signer.Sign r.ctx (muxVar r "key") data = .error err)
    (hbranch : (∃ e, s.Signer.GetPublicKey r.ctx (muxVar r "key") = .error e) ∨
      (∃ pk e, s.Signer.GetPublicKey r.ctx (muxVar r "key") = .ok pk ∧
        tz.ParseUnsignedMessage data = .error e)) :
    ∃ entry, logEntries (signHandler tz s r) = [entry] ∧
      entry.arg = err ∧
      entry.field "op" = none ∧ entry.field "lvl" = none ∧ entry.field "chain_id" = none ∧
      ((∃ e, s.Signer.GetPublicKey r.ctx (muxVar r "key") = .error e) →
        parseCalls (signHandler tz s r) = []) := by
  rcases hbranch with ⟨e, hprobe⟩ | ⟨pk, e, hprobe, hparse⟩
  · rw [signHandler_probeError tz s r body data err e hbody hdec hsign hprobe]
    exact ⟨_, rfl, rfl, rfl, rfl, rfl, fun _ => rfl⟩
  · rw [signHandler_parseError tz s r body data err e pk hbody hdec hsign hprobe hparse]
    refine ⟨_, rfl, rfl, rfl, rfl, rfl, ?_⟩
    rintro ⟨e1, he1⟩
    rw [hprobe] at he1
    cases he1

/-- C5 (witness): an unknown key gives one plain log entry and no call to the parser. -/
theorem unknown_key_or_unrecognised_logs_once_witness :
    ∃ entry,
      logEntries (signHandler exTezosBlock (exServer exUnknownKeySigner) exRequest) = [entry] ∧
      entry.arg = exSignErr ∧
      entry.field "op" = none ∧ entry.field "lvl" = none ∧ entry.field "chain_id" = none ∧
      ((∃ e, (exServer exUnknownKeySigner).Signer.GetPublicKey exRequest.ctx
          (muxVar exRequest "key") = .error e) →
        parseCalls (signHandler exTezosBlock (exServer exUnknownKeySigner) exRequest) = []) :=
  unknown_key_or_unrecognised_logs_once exTezosBlock (exServer exUnknownKeySigner) exRequest
    exBody [3, 255] exSignErr rfl rfl rfl (Or.inl ⟨exProbeErr, rfl⟩)

/-- C6: when the body decodes to `data` and `Signer.Sign` returns `sig` without error,
the handler writes one response, with status 200 and signature `sig`; it does not call
`GetPublicKey`, does not parse the payload and writes no log entry. -/
theorem sign_success_responds_with_signature (tz : Tezos) (s : Server) (r : Request)
    (body data : Bytes) (sig : String) (hbody : r.body = .ok body)
    (hdec : decodeMessage body = .ok data)
    (hsign : s.Signer.Sign r.ctx (muxVar r "key") data = .ok sig) :
    responses (signHandler tz s r) = [Response.success 200 sig] ∧
      probeCalls (signHandler tz s r) = [] ∧
      parseCalls (signHandler tz s r) = [] ∧
      logEntries (signHandler tz s r) = [] := by
  rw [signHandler_signOk tz s r body data sig hbody hdec hsign]
  exact ⟨rfl, rfl, rfl, rfl⟩

/-- C6 (witness): `"03ff"` signed by a willing backend. -/
theorem sign_success_responds_with_signature_witness :
    responses (signHandler exTezosBlock (exServer exSigner) exRequest) =
        [Response.success 200 "sig"] ∧
      probeCalls (signHandler exTezosBlock (exServer exSigner) exRequest) = [] ∧
      parseCalls (signHandler exTezosBlock (exServer exSigner) exRequest) = [] ∧
      logEntries (signHandler exTezosBlock (exServer exSigner) exRequest) = [] :=
  sign_success_responds_with_signature exTezosBlock (exServer exSigner) exRequest exBody
    [3, 255] "sig" rfl rfl rfl

/-- C7 (counterexample): a body read failure whose error carries no HTTP status is
handed to `jsonError` unwrapped, so the response goes out with status 500, not 400. -/
theorem unreadable_body_is_not_bad_request :
    responses (signHandler exTezosBlock (exServer exSigner) exUnreadableRequest) =
        [Response.failure (GoErr.ext 9 none)] ∧
      (Response.failure (GoErr.ext 9 none)).status = 500 ∧
      (Response.failure (GoErr.ext 9 none)).status ≠ StatusBadRequest :=
  ⟨rfl, rfl, by decide⟩

/-- C7 (amended): when the body cannot be read, the handler logs the read error, hands
that same error, unwrapped, to `jsonError` and stops: it decodes nothing and calls
neither `Sign` nor `GetPublicKey`.  The response status is the one the read error
itself carries, and `InternalServerError` when it carries none. -/
theorem unreadable_body_reports_read_error (tz : Tezos) (s : Server) (r : Request)
    (e : GoErr) (hbody : r.body = .error e) :
    signHandler tz s r =
        [Event.readAll, Event.log ⟨s.logger, [], readErrorFormat, e⟩, Event.jsonError e,
          Event.bodyClose] ∧
      responses (signHandler tz s r) = [Response.failure e] ∧
      signCalls (signHandler tz s r) = [] ∧
      probeCalls (signHandler tz s r) = [] ∧
      (∀ st, httpStatus e = some st → (Response.failure e).status = st) ∧
      (httpStatus e = none → (Response.failure e).status = 500) := by
  rw [signHandler_readError tz s r e hbody]
  refine ⟨rfl, rfl, rfl, rfl, ?_, ?_⟩
  · intro st hst
    simp [Response.status, jsonErrorStatus, hst]
  · intro hst
    simp [Response.status, jsonErrorStatus, hst, StatusInternalServerError]

/-- C7 (witness): the amended statement at a read error without status. -/
theorem unreadable_body_reports_read_error_witness :
    signHandler exTezosBlock (exServer exSigner) exUnreadableRequest =
        [Event.readAll,
          Event.log ⟨(exServer exSigner).logger, [], readErrorFormat, GoErr.ext 9 none⟩,
          Event.jsonError (GoErr.ext 9 none), Event.bodyClose] ∧
      responses (signHandler exTezosBlock (exServer exSigner) exUnreadableRequest) =
        [Response.failure (GoErr.ext 9 none)] ∧
      signCalls (signHandler exTezosBlock (exServer exSigner) exUnreadableRequest) = [] ∧
      probeCalls (signHandler exTezosBlock (exServer exSigner) exUnreadableRequest) = [] ∧
      (∀ st, httpStatus (GoErr.ext 9 none) = some st →
        (Response.failure (GoErr.ext 9 none)).status = st) ∧
      (httpStatus (GoErr.ext 9 none) = none →
        (Response.failure (GoErr.ext 9 none)).status = 500) :=
  unreadable_body_reports_read_error exTezosBlock (exServer exSigner) exUnreadableRequest
    (GoErr.ext 9 none) rfl

/-- The handler calls `Sign` exactly once, with the request's key hash and the decoded
bytes, whenever the body decodes. -/
theorem signCalls_of_decoded (tz : Tezos) (s : Server) (r : Request) (body data : Bytes)
    (hbody : r.body = .ok body) (hdec : decodeMessage body = .ok data) :
    signCalls (signHandler tz s r) = [(muxVar r "key", data)] := by
  rcases signHandler_cases tz s r with ⟨e, hb, _⟩ | ⟨b, e, hb, hd, _⟩ | ⟨b, d, sig, hb, hd, _, ht⟩ |
      ⟨b, d, err, e, hb, hd, _, _, ht⟩ | ⟨b, d, err, pk, entry, hb, hd, _, _, ht⟩
  · rw [hbody] at hb; cases hb
  · rw [hbody] at hb; cases hb; rw [hdec] at hd; cases hd
  · rw [hbody] at hb; cases hb; rw [hdec] at hd; cases hd; rw [ht]; rfl
  · rw [hbody] at hb; cases hb; rw [hdec] at hd; cases hd; rw [ht]; rfl
  · rw [hbody] at hb; cases hb; rw [hdec] at hd; cases hd; rw [ht]; rfl

/-- C8: decoding the JSON string of the hex encoding of any byte sequence gives the
sequence back; for every body that decodes to `d`, encoding `d` and decoding again
gives `d`; and the bytes passed to `Signer.Sign` are exactly the decoded bytes. -/
theorem decode_encode_roundtrip :
    (∀ b : Bytes, IsBytes b → decodeMessage (encodeMessage b) = .ok b) ∧
    (∀ body d : Bytes, decodeMessage body = .ok d → decodeMessage (encodeMessage d) = .ok d) ∧
    (∀ (tz : Tezos) (s : Server) (r : Request) (body d : Bytes), r.body = .ok body →
      decodeMessage body = .ok d → signCalls (signHandler tz s r) = [(muxVar r "key", d)]) :=
  ⟨decodeMessage_encodeMessage,
    fun body d h => decodeMessage_encodeMessage d (decodeMessage_isBytes body d h),
    signCalls_of_decoded⟩

/-- C8 (witness): the bytes 3, 255 encode to `"03ff"`, which decodes back; the body
`"03FF"` decodes to the same bytes, which round-trip; `Sign` receives them. -/
theorem decode_encode_roundtrip_witness :
    encodeMessage [3, 255] = exBody ∧
    decodeMessage (encodeMessage [3, 255]) = .ok [3, 255] ∧
    decodeMessage [0x22, 0x30, 0x33, 0x46, 0x46, 0x22] = .ok [3, 255] ∧
    decodeMessage (encodeMessage [3, 255]) = .ok [3, 255] ∧
    signCalls (signHandler exTezosBlock (exServer exSigner) exRequest) = [("tz1", [3, 255])] :=
  ⟨rfl,
    decode_encode_roundtrip.1 [3, 255] (by unfold IsBytes; decide),
    rfl,
    decode_encode_roundtrip.2.1 [0x22, 0x30, 0x33, 0x46, 0x46, 0x22] [3, 255] rfl,
    decode_encode_roundtrip.2.2 exTezosBlock (exServer exSigner) exRequest exBody [3, 255]
      rfl rfl⟩

/-- C9: on every path the handler writes exactly one response: either one success
response with status 200 carrying a signature, or one error response. -/
theorem exactly_one_response (tz : Tezos) (s : Server) (r : Request) :
    ∃ resp, responses (signHandler tz s r) = [resp] ∧
      ((∃ sig, resp = Response.success 200 sig) ∨ (∃ e, resp = Response.failure e)) := by
  rcases signHandler_cases tz s r with ⟨e, _, ht⟩ | ⟨b, e, _, _, ht⟩ | ⟨b, d, sig, _, _, _, ht⟩ |
      ⟨b, d, err, e, _, _, _, _, ht⟩ | ⟨b, d, err, pk, entry, _, _, _, _, ht⟩
  · rw [ht]; exact ⟨_, rfl, Or.inr ⟨_, rfl⟩⟩
  · rw [ht]; exact ⟨_, rfl, Or.inr ⟨_, rfl⟩⟩
  · rw [ht]; exact ⟨_, rfl, Or.inl ⟨_, rfl⟩⟩
  · rw [ht]; exact ⟨_, rfl, Or.inr ⟨_, rfl⟩⟩
  · rw [ht]; exact ⟨_, rfl, Or.inr ⟨_, rfl⟩⟩

/-- C10: the handler does not retry.  `Sign` is called at most once, and exactly once
with the decoded bytes when the body decodes; `GetPublicKey` is called at most once,
and only after a call to `Sign` that returned an error; `ParseUnsignedMessage` is
called at most once, and only after a call to `GetPublicKey` that succeeded; both
backend calls receive the key hash of the request path. -/
theorem no_retry (tz : Tezos) (s : Server) (r : Request) :
    (signCalls (signHandler tz s r)).length ≤ 1 ∧
    (∀ body d, r.body = .ok body → decodeMessage body = .ok d →
      signCalls (signHandler tz s r) = [(muxVar r "key", d)]) ∧
    (probeCalls (signHandler tz s r)).length ≤ 1 ∧
    (∀ k ∈ probeCalls (signHandler tz s r), k = muxVar r "key" ∧
      ∃ d err, s.Signer.Sign r.ctx (muxVar r "key") d = .error err ∧
        List.Sublist
          [Event.sign r.ctx (muxVar r "key") d, Event.getPublicKey r.ctx (muxVar r "key")]
          (signHandler tz s r)) ∧
    (parseCalls (signHandler tz s r)).length ≤ 1 ∧
    (∀ d ∈ parseCalls (signHandler tz s r),
      ∃ pk, s.Signer.GetPublicKey r.ctx (muxVar r "key") = .ok pk ∧
        List.Sublist
          [Event.getPublicKey r.ctx (muxVar r "key"), Event.parseUnsignedMessage d]
          (signHandler tz s r)) ∧
    (∀ c ∈ signCalls (signHandler tz s r), c.1 = muxVar r "key") := by
  refine ⟨?_, signCalls_of_decoded tz s r, ?_⟩
  · rcases signHandler_cases tz s r with ⟨e, _, ht⟩ | ⟨b, e, _, _, ht⟩ |
        ⟨b, d, sig, _, _, _, ht⟩ | ⟨b, d, err, e, _, _, _, _, ht⟩ |
        ⟨b, d, err, pk, entry, _, _, _, _, ht⟩ <;>
      rw [ht] <;> simp [signCalls]
  · rcases signHandler_cases tz s r with ⟨e, _, ht⟩ | ⟨b, e, _, _, ht⟩ |
        ⟨b, d, sig, _, _, _, ht⟩ | ⟨b, d, err, e, _, _, hsign, _, ht⟩ |
        ⟨b, d, err, pk, entry, _, _, hsign, hprobe, ht⟩
    · rw [ht]
      simp [signCalls, probeCalls, parseCalls]
    · rw [ht]
      simp [signCalls, probeCalls, parseCalls]
    · rw [ht]
      simp [signCalls, probeCalls, parseCalls]
    · rw [ht]
      refine ⟨by simp [probeCalls], ?_, by simp [parseCalls], ?_, ?_⟩
      · intro k hk
        simp only [probeCalls, List.mem_singleton] at hk
        exact ⟨hk, d, err, hsign,
          List.Sublist.cons _ (List.Sublist.cons₂ _ (List.Sublist.cons₂ _ (List.nil_sublist _)))⟩
      · intro d1 hd1
        simp [parseCalls] at hd1
      · intro c hc
        simp only [signCalls, List.mem_singleton] at hc
        rw [hc]
    · rw [ht]
      refine ⟨by simp [probeCalls], ?_, by simp [parseCalls], ?_, ?_⟩
      · intro k hk
        simp only [probeCalls, List.mem_singleton] at hk
        exact ⟨hk, d, err, hsign,
          List.Sublist.cons _ (List.Sublist.cons₂ _ (List.Sublist.cons₂ _ (List.nil_sublist _)))⟩
      · intro d1 hd1
        simp only [parseCalls, List.mem_singleton] at hd1
        subst hd1
        exact ⟨pk, hprobe,
          List.Sublist.cons _ (List.Sublist.cons _
            (List.Sublist.cons₂ _ (List.Sublist.cons₂ _ (List.nil_sublist _))))⟩
      · intro c hc
        simp only [signCalls, List.mem_singleton] at hc
        rw [hc]

/-- C10 (witness): a refused signature with a known key: one call to `Sign`, then one
to `GetPublicKey`, then one to the parser, all for key `tz1`. -/
theorem no_retry_witness :
    signCalls (signHandler exTezosBlock (exServer exRefusingSigner) exRequest) =
        [("tz1", [3, 255])] ∧
      probeCalls (signHandler exTezosBlock (exServer exRefusingSigner) exRequest) = ["tz1"] ∧
      parseCalls (signHandler exTezosBlock (exServer exRefusingSigner) exRequest) =
        [[3, 255]] ∧
      (probeCalls (signHandler exTezosBlock (exServer exRefusingSigner) exRequest)).length ≤ 1 ∧
      (parseCalls (signHandler exTezosBlock (exServer exRefusingSigner) exRequest)).length ≤ 1 :=
  ⟨(no_retry exTezosBlock (exServer exRefusingSigner) exRequest).2.1 exBody [3, 255] rfl rfl,
    rfl, rfl,
    (no_retry exTezosBlock (exServer exRefusingSigner) exRequest).2.2.1,
    (no_retry exTezosBlock (exServer exRefusingSigner) exRequest).2.2.2.2.1⟩

end Signatory
